import Mathlib

/-!
Shallow embedding of the device-management sync system:
the server (src/server/src/main.rs: device registry upsert, snapshot log,
admin-config upsert/increment, single and batch config endpoints, sync
endpoint) and the client sync service
(src/src-tauri/src/services/management_sync.rs: scheduler delay, admin-config
applier, response handling, applied-version persistence).

Conventions of the embedding:
- timestamps (`chrono::DateTime<Utc>`) are `Int` seconds;
- JSON config bodies (`serde_json::Value`) are an opaque type parameter `B`;
- SQL tables with a unique key are lists of rows, `INSERT ... ON CONFLICT`
  becomes find-then-update-or-append;
- fallible handlers return `Except ApiErr`, client errors are the
  `AppError::Message` strings of the source;
- IP addresses are carried already rendered to `Option String` (the source
  maps `Option<IpAddr>` through `to_string` before binding).
-/

namespace MgmtSync

/-- `GeoResult` from main.rs: optional country/region/city from GeoIP. -/
structure GeoResult where
  country : Option String
  region : Option String
  city : Option String
deriving DecidableEq

/-- Server-side `SyncRequest` (main.rs, camelCase JSON body of
`POST /api/v1/devices/sync`); the snapshot body is opaque `B`. -/
structure SyncRequestS (B : Type) where
  deviceId : String
  appVersion : Option String
  appliedAdminVersion : Option Int
  snapshot : B
  clientTime : Option String
deriving DecidableEq

/-- A row of the `devices` table. -/
structure DeviceRow where
  deviceId : String
  fingerprintHash : String
  lastSeen : Int
  lastIp : Option String
  geoCountry : Option String
  geoRegion : Option String
  geoCity : Option String
  appVersion : Option String
  createdAt : Int
deriving DecidableEq

/-- A row of the `config_snapshots` table. -/
structure SnapshotRow (B : Type) where
  deviceId : String
  snapshot : B
  createdAt : Int
deriving DecidableEq

/-- A row of the `admin_configs` table (unique on `device_id`). -/
structure AdminCfgRow (B : Type) where
  deviceId : String
  version : Int
  config : B
  updatedAt : Int
deriving DecidableEq

/-- The server's persistent state: the three tables. -/
structure ServerState (B : Type) where
  devices : List DeviceRow
  snapshots : List (SnapshotRow B)
  adminConfigs : List (AdminCfgRow B)
deriving DecidableEq

/-- The empty database. -/
def initialServerState (B : Type) : ServerState B :=
  { devices := [], snapshots := [], adminConfigs := [] }

/-- `ApiError` of main.rs: an HTTP status and a message. -/
structure ApiErr where
  status : Nat
  message : String
deriving DecidableEq

/-- Server-side `SyncResponse` (main.rs). -/
structure SyncResponseS (B : Type) where
  ok : Bool
  serverTime : Int
  adminConfig : Option B
  adminVersion : Option Int
deriving DecidableEq

/-- Rust's `device_id.trim().is_empty()`: true exactly when the string has
no non-whitespace character (embedded without `String.trim`, whose Lean
implementation does not reduce in the kernel; emptiness after trimming is
the same as being all whitespace). -/
def trimEmpty (s : String) : Bool := s.data.all (·.isWhitespace)

/-- Lookup of the unique row of a keyed table by device id
(`SELECT ... WHERE device_id = $1`). -/
def lookupAdmin {B : Type} (table : List (AdminCfgRow B)) (deviceId : String) :
    Option (AdminCfgRow B) :=
  table.find? (fun r => r.deviceId == deviceId)

/-- `upsert_device` (main.rs:564-601): `INSERT INTO devices ... ON CONFLICT
(device_id) DO UPDATE SET last_seen, last_ip, geo_country, geo_region,
geo_city, app_version` — `fingerprint_hash` and `created_at` are not in the
update list; both inserted columns `device_id` and `fingerprint_hash` are
bound to `payload.device_id`. -/
def upsert_device {B : Type} (table : List DeviceRow) (payload : SyncRequestS B)
    (now : Int) (ip : Option String) (geo : Option GeoResult) : List DeviceRow :=
  match table.find? (fun r => r.deviceId == payload.deviceId) with
  | some _ =>
    table.map (fun r =>
      if r.deviceId == payload.deviceId then
        { r with
          lastSeen := now
          lastIp := ip
          geoCountry := geo.bind (·.country)
          geoRegion := geo.bind (·.region)
          geoCity := geo.bind (·.city)
          appVersion := payload.appVersion }
      else r)
  | none =>
    table ++ [{ deviceId := payload.deviceId
                fingerprintHash := payload.deviceId
                lastSeen := now
                lastIp := ip
                geoCountry := geo.bind (·.country)
                geoRegion := geo.bind (·.region)
                geoCity := geo.bind (·.city)
                appVersion := payload.appVersion
                createdAt := now }]

/-- `insert_snapshot` (main.rs:603-620): plain append. -/
def insert_snapshot {B : Type} (table : List (SnapshotRow B)) (deviceId : String)
    (snapshot : B) (now : Int) : List (SnapshotRow B) :=
  table ++ [{ deviceId := deviceId, snapshot := snapshot, createdAt := now }]

/-- `upsert_admin_config_value` (main.rs:649-670): `INSERT INTO admin_configs
(device_id, version, config, updated_at) VALUES ($1, 1, $2, $3) ON CONFLICT
(device_id) DO UPDATE SET version = admin_configs.version + 1, config, updated_at
RETURNING version`. Returns the new table and the returned version. -/
def upsert_admin_config_value {B : Type} (table : List (AdminCfgRow B))
    (deviceId : String) (config : B) (now : Int) : List (AdminCfgRow B) × Int :=
  match table.find? (fun r => r.deviceId == deviceId) with
  | some r =>
    (table.map (fun row =>
        if row.deviceId == deviceId then
          { row with version := row.version + 1, config := config, updatedAt := now }
        else row),
     r.version + 1)
  | none =>
    (table ++ [{ deviceId := deviceId, version := 1, config := config, updatedAt := now }], 1)

/-- `sync_device` (main.rs:246-273), after authorization: validates the
device id, upserts the device row, appends the snapshot, fetches the
current admin config and builds the response from that single row. -/
def sync_device {B : Type} (st : ServerState B) (payload : SyncRequestS B)
    (now : Int) (ip : Option String) (geo : Option GeoResult) :
    Except ApiErr (ServerState B × SyncResponseS B) :=
  if trimEmpty payload.deviceId then
    .error { status := 400, message := "device_id is required" }
  else
    let devices := upsert_device st.devices payload now ip geo
    let snapshots := insert_snapshot st.snapshots payload.deviceId payload.snapshot now
    let admin := lookupAdmin st.adminConfigs payload.deviceId
    .ok ({ devices := devices, snapshots := snapshots, adminConfigs := st.adminConfigs },
         { ok := true
           serverTime := now
           adminConfig := admin.map (·.config)
           adminVersion := admin.map (·.version) })

/-- `upsert_admin_config` (main.rs:421-440), after authorization: validates
the device id, then upserts and returns the new version. -/
def upsert_admin_config {B : Type} (st : ServerState B) (deviceId : String)
    (config : B) (now : Int) : Except ApiErr (ServerState B × Int) :=
  if trimEmpty deviceId then
    .error { status := 400, message := "device_id is required" }
  else
    let result := upsert_admin_config_value st.adminConfigs deviceId config now
    .ok ({ st with adminConfigs := result.1 }, result.2)

/-- `batch_admin_config` (main.rs:442-470), after authorization: rejects an
empty id list, filters the requested ids to those present in `devices`
(`SELECT device_id FROM devices WHERE device_id = ANY($1)`, i.e. the
registry rows whose id occurs in the request), then upserts once per
surviving id sequentially, counting each. -/
def batch_admin_config {B : Type} (st : ServerState B) (deviceIds : List String)
    (config : B) (now : Int) : Except ApiErr (ServerState B × Int) :=
  if deviceIds.isEmpty then
    .error { status := 400, message := "device_ids is required" }
  else
    let existing := (st.devices.map (·.deviceId)).filter (fun d => deviceIds.contains d)
    let st' := existing.foldl
      (fun acc id =>
        { acc with adminConfigs := (upsert_admin_config_value acc.adminConfigs id config now).1 })
      st
    .ok (st', (existing.length : Int))

/-! ## Client side (src-tauri/src/services/management_sync.rs) -/

/-- One of the fixed client app types (`AppType` in app_config). -/
inductive AppType where
  | claude
  | codex
  | gemini
deriving DecidableEq

/-- `AppType::as_str`. -/
def AppType.asStr : AppType → String
  | .claude => "claude"
  | .codex => "codex"
  | .gemini => "gemini"

/-- A provider profile. The `Provider` type lives outside src/; the fields
the sync service touches are its identity and an opaque configuration
payload. -/
structure Provider where
  id : String
  payload : String
deriving DecidableEq

/-- `AppProviderSnapshot`: `current_id` plus the `IndexMap<String, Provider>`
of providers, embedded as the map's ordered key/value pair list. -/
structure AppProviderSnapshot where
  currentId : Option String
  providers : List (String × Provider)
deriving DecidableEq

/-- `DeviceConfigSnapshot`: one optional per-app-type snapshot. -/
structure DeviceConfigSnapshot where
  claude : Option AppProviderSnapshot
  codex : Option AppProviderSnapshot
  gemini : Option AppProviderSnapshot
deriving DecidableEq

/-- Modelled from the spec: the per-app-type provider store contract (§6:
`list`, `add`, `deleteAll`, `switchActive`); its implementation
(`ProviderService`, `Database`) is not under src/. The store holds the
ordered provider list and the active provider id. -/
structure AppStore where
  providers : List Provider
  current : Option String
deriving DecidableEq

/-- The client's local state: one provider store per app type plus the
persistent string key-value settings store (spec §6 contract). -/
structure ClientState where
  claude : AppStore
  codex : AppStore
  gemini : AppStore
  settings : List (String × String)
deriving DecidableEq

/-- The store of an app type. -/
def getAppStore (st : ClientState) : AppType → AppStore
  | .claude => st.claude
  | .codex => st.codex
  | .gemini => st.gemini

/-- Replace the store of an app type. -/
def setAppStore (st : ClientState) : AppType → AppStore → ClientState
  | .claude, s => { st with claude := s }
  | .codex, s => { st with codex := s }
  | .gemini, s => { st with gemini := s }

/-- Modelled from the spec: `deleteAll` of the per-app-type provider
store — `db.delete_providers_by_app_type` empties that app type's
provider set. -/
def delete_providers_by_app_type (st : ClientState) (t : AppType) : ClientState :=
  setAppStore st t { getAppStore st t with providers := [] }

/-- Modelled from the spec: `add` of the per-app-type provider store —
`ProviderService::add` appends the provider to that app type's set. -/
def provider_add (st : ClientState) (t : AppType) (p : Provider) : ClientState :=
  setAppStore st t { getAppStore st t with providers := (getAppStore st t).providers ++ [p] }

/-- Modelled from the spec: `switchActive` of the per-app-type provider
store — `ProviderService::switch` makes the given id the active provider. -/
def provider_switch (st : ClientState) (t : AppType) (id : String) : ClientState :=
  setAppStore st t { getAppStore st t with current := some id }

/-- Modelled from the spec: `set` of the persistent string key-value store
(`db.set_setting`): replace the value under the key, or add the entry. -/
def set_setting (settings : List (String × String)) (key value : String) :
    List (String × String) :=
  match settings.find? (fun kv => kv.1 == key) with
  | some _ => settings.map (fun kv => if kv.1 == key then (key, value) else kv)
  | none => settings ++ [(key, value)]

/-- Modelled from the spec: `get` of the persistent string key-value store
(`db.get_setting`). -/
def get_setting (settings : List (String × String)) (key : String) : Option String :=
  (settings.find? (fun kv => kv.1 == key)).map (·.2)

/-- The settings key `SETTINGS_APPLIED_ADMIN_VERSION`. -/
def settingsAppliedAdminVersion : String := "management_admin_version"

/-- The settings key `SETTINGS_LAST_SYNC_AT`. -/
def settingsLastSyncAt : String := "management_last_sync_at"

/-- `apply_app_snapshot` (management_sync.rs:213-243): require `current_id`
to be set and to be a key of `providers`; only then delete all providers of
the app type, add every provider of the pushed map in order, and switch to
`current_id`. Returns the updated state and the error, if any
(`AppError::Message` strings of the source). -/
def apply_app_snapshot (st : ClientState) (t : AppType) (snap : AppProviderSnapshot) :
    ClientState × Option String :=
  match snap.currentId with
  | none => (st, some ("Admin config missing current provider: " ++ t.asStr))
  | some currentId =>
    if (snap.providers.map (·.1)).contains currentId then
      let st1 := delete_providers_by_app_type st t
      let st2 := snap.providers.foldl (fun acc kv => provider_add acc t kv.2) st1
      (provider_switch st2 t currentId, none)
    else
      (st, some ("Admin config current provider not found: " ++ currentId))

/-- One `if let Some(snapshot) = ... { apply_app_snapshot(...)? }` step of
`apply_admin_config` (management_sync.rs:199-211): skip an absent
snapshot, apply a present one, and once a step has failed propagate the
error without processing anything further (the `?` early return), keeping
the state mutations already made. -/
def apply_step (acc : ClientState × Option String) (t : AppType)
    (snap : Option AppProviderSnapshot) : ClientState × Option String :=
  match acc.2, snap with
  | some e, _ => (acc.1, some e)
  | none, none => (acc.1, none)
  | none, some s => apply_app_snapshot acc.1 t s

/-- `apply_admin_config` (management_sync.rs:199-211), assembled from
`apply_step` for each app type in the fixed order. -/
def apply_admin_config (st : ClientState) (config : DeviceConfigSnapshot) :
    ClientState × Option String :=
  apply_step (apply_step (apply_step (st, none) .claude config.claude) .codex config.codex)
    .gemini config.gemini

/-- Client-side parsed `SyncResponse` (management_sync.rs:49-55). -/
structure SyncResponseC where
  ok : Bool
  adminConfig : Option DeviceConfigSnapshot
  adminVersion : Option Int
deriving DecidableEq

/-- `set_applied_admin_version` (management_sync.rs:269-271). -/
def set_applied_admin_version (st : ClientState) (version : Int) : ClientState :=
  { st with settings := set_setting st.settings settingsAppliedAdminVersion (toString version) }

/-- `set_last_sync_at` (management_sync.rs:273-275); the timestamp is stored
rendered to a string. -/
def set_last_sync_at (st : ClientState) (now : Int) : ClientState :=
  { st with settings := set_setting st.settings settingsLastSyncAt (toString now) }

/-- The response-handling tail of `run_once` (management_sync.rs:137-147):
on `ok`, if `admin_config` is present apply it — the `?` propagates an
application error immediately — then persist `admin_version` when present,
and finally persist `last_sync_at`. Returns the updated state and the
error, if any. -/
def run_once_handle_response (st : ClientState) (data : SyncResponseC) (now : Int) :
    ClientState × Option String :=
  if data.ok then
    match data.adminConfig with
    | some config =>
      match apply_admin_config st config with
      | (st1, some e) => (st1, some e)
      | (st1, none) =>
        let st2 := match data.adminVersion with
          | some version => set_applied_admin_version st1 version
          | none => st1
        (set_last_sync_at st2 now, none)
    | none => (set_last_sync_at st now, none)
  else
    (st, none)

/-- Value of a list of decimal digit characters; `none` if the list is
empty or holds a non-digit. -/
def digitsVal : List Char → Option Nat
  | [] => none
  | [c] => if c.isDigit then some (c.toNat - 48) else none
  | c :: rest =>
    if c.isDigit then
      (digitsVal rest).map (fun n => (c.toNat - 48) * 10 ^ rest.length + n)
    else none

/-- Rust's `str::parse::<i64>`: an optional sign followed by one or more
ASCII digits, rejected outside the i64 range. -/
def parse_i64 (s : String) : Option Int :=
  let signed : Bool × List Char :=
    match s.data with
    | '-' :: rest => (true, rest)
    | '+' :: rest => (false, rest)
    | cs => (false, cs)
  match digitsVal signed.2 with
  | none => none
  | some n =>
    let v : Int := if signed.1 then -(n : Int) else (n : Int)
    if -(2 ^ 63) ≤ v ∧ v ≤ 2 ^ 63 - 1 then some v else none

/-- `next_beijing_4am_delay` (management_sync.rs:151-167): the current
instant is taken in the fixed UTC+8 offset; `nowLocal` is that local time
in seconds on a timeline where day boundaries are the multiples of 86400
(`FixedOffset` has no DST, so every local day is exactly 86400 seconds and
`with_ymd_and_hms(y, m, d, 4, 0, 0)` is the day's start plus 4 hours).
Delay until today's 04:00 if now is before it, else until tomorrow's. -/
def next_beijing_4am_delay (nowLocal : Nat) : Nat :=
  let today4am := nowLocal / 86400 * 86400 + 4 * 3600
  let next := if nowLocal < today4am then today4am else today4am + 86400
  next - nowLocal

/-- `get_applied_admin_version` (management_sync.rs:262-267):
`value.and_then(parse::<i64>().ok()).filter(|v| *v > 0)`. -/
def get_applied_admin_version (stored : Option String) : Option Int :=
  (stored.bind parse_i64).filter (fun v => 0 < v)

/-! ## Operation sequences and derived definitions used by the claims -/

/-- An authorized state-changing request the server can handle: a device
sync, a single admin-config push, or a batch push. -/
inductive ServerOp (B : Type) where
  | sync (payload : SyncRequestS B) (now : Int) (ip : Option String) (geo : Option GeoResult)
  | adminPush (deviceId : String) (config : B) (now : Int)
  | batch (deviceIds : List String) (config : B) (now : Int)

/-- Apply one operation; a rejected request leaves the state unchanged. -/
def applyOp {B : Type} (st : ServerState B) : ServerOp B → ServerState B
  | .sync p now ip geo =>
    match sync_device st p now ip geo with
    | .ok (st', _) => st'
    | .error _ => st
  | .adminPush id cfg now =>
    match upsert_admin_config st id cfg now with
    | .ok (st', _) => st'
    | .error _ => st
  | .batch ids cfg now =>
    match batch_admin_config st ids cfg now with
    | .ok (st', _) => st'
    | .error _ => st

/-- Run a sequence of operations. -/
def runOps {B : Type} (st : ServerState B) (ops : List (ServerOp B)) : ServerState B :=
  ops.foldl applyOp st

/-- Sequential `upsert_admin_config_value` calls for one device id, each
with its own body and timestamp. -/
def apply_upserts {B : Type} (table : List (AdminCfgRow B)) (deviceId : String)
    (writes : List (B × Int)) : List (AdminCfgRow B) :=
  writes.foldl (fun t w => (upsert_admin_config_value t deviceId w.1 w.2).1) table

/-- The validation `apply_app_snapshot` performs before anything destructive:
`current_id` is set and is a key of `providers`. -/
def snapshotValid (snap : AppProviderSnapshot) : Bool :=
  match snap.currentId with
  | none => false
  | some currentId => (snap.providers.map (·.1)).contains currentId

/-! ## Helper lemmas -/

theorem getAppStore_setAppStore_same (st : ClientState) (t : AppType) (s : AppStore) :
    getAppStore (setAppStore st t s) t = s := by
  cases t <;> rfl

theorem getAppStore_setAppStore_ne (st : ClientState) (t : AppType) (s : AppStore)
    (t' : AppType) (h : t' ≠ t) :
    getAppStore (setAppStore st t s) t' = getAppStore st t' := by
  cases t <;> cases t' <;> first | rfl | exact absurd rfl h

theorem setAppStore_setAppStore (st : ClientState) (t : AppType) (a b : AppStore) :
    setAppStore (setAppStore st t a) t b = setAppStore st t b := by
  cases t <;> rfl

theorem setAppStore_getAppStore (st : ClientState) (t : AppType) :
    setAppStore st t (getAppStore st t) = st := by
  cases t <;> rfl

theorem setAppStore_settings (st : ClientState) (t : AppType) (s : AppStore) :
    (setAppStore st t s).settings = st.settings := by
  cases t <;> rfl

/-- The provider-add fold of `apply_app_snapshot`, written as a single
store replacement. -/
theorem fold_add_eq (t : AppType) (ps : List (String × Provider)) :
    ∀ st : ClientState,
      ps.foldl (fun acc kv => provider_add acc t kv.2) st
        = setAppStore st t
            { providers := (getAppStore st t).providers ++ ps.map (·.2)
              current := (getAppStore st t).current } := by
  induction ps with
  | nil =>
    intro st
    simp only [List.foldl_nil, List.map_nil, List.append_nil]
    exact (setAppStore_getAppStore st t).symm
  | cons hd tl ih =>
    intro st
    rw [List.foldl_cons, ih]
    simp only [provider_add, getAppStore_setAppStore_same, setAppStore_setAppStore,
      List.map_cons, List.append_assoc, List.singleton_append]

/-- On a valid snapshot, `apply_app_snapshot` replaces the app type's store
with the pushed providers and the pushed active id. -/
theorem apply_app_snapshot_success_eq (st : ClientState) (t : AppType)
    (snap : AppProviderSnapshot) (currentId : String)
    (h1 : snap.currentId = some currentId)
    (h2 : (snap.providers.map (·.1)).contains currentId = true) :
    apply_app_snapshot st t snap
      = (setAppStore st t { providers := snap.providers.map (·.2), current := some currentId },
         none) := by
  unfold apply_app_snapshot
  rw [h1]
  dsimp only
  rw [if_pos h2]
  simp only [delete_providers_by_app_type, fold_add_eq, provider_switch,
    getAppStore_setAppStore_same, setAppStore_setAppStore, List.nil_append]

/-- On an invalid snapshot, `apply_app_snapshot` fails without touching the
state. -/
theorem apply_app_snapshot_invalid_eq (st : ClientState) (t : AppType)
    (snap : AppProviderSnapshot) (h : snapshotValid snap = false) :
    (apply_app_snapshot st t snap).1 = st ∧ (apply_app_snapshot st t snap).2.isSome = true := by
  unfold apply_app_snapshot
  unfold snapshotValid at h
  cases hc : snap.currentId with
  | none => exact ⟨rfl, rfl⟩
  | some currentId =>
    rw [hc] at h
    dsimp only at h ⊢
    rw [if_neg (by rw [h]; exact Bool.false_ne_true)]
    exact ⟨rfl, rfl⟩

/-- `apply_app_snapshot` never touches the store of a different app type. -/
theorem apply_app_snapshot_frame (st : ClientState) (t : AppType)
    (snap : AppProviderSnapshot) (t' : AppType) (h : t' ≠ t) :
    getAppStore (apply_app_snapshot st t snap).1 t' = getAppStore st t' := by
  unfold apply_app_snapshot
  cases snap.currentId with
  | none => rfl
  | some currentId =>
    dsimp only
    split
    · simp only [delete_providers_by_app_type, fold_add_eq, provider_switch,
        getAppStore_setAppStore_same, setAppStore_setAppStore]
      exact getAppStore_setAppStore_ne st t _ t' h
    · rfl

/-- `apply_app_snapshot` never touches the settings store. -/
theorem apply_app_snapshot_settings (st : ClientState) (t : AppType)
    (snap : AppProviderSnapshot) :
    (apply_app_snapshot st t snap).1.settings = st.settings := by
  unfold apply_app_snapshot
  cases snap.currentId with
  | none => rfl
  | some currentId =>
    dsimp only
    split
    · simp only [delete_providers_by_app_type, fold_add_eq, provider_switch,
        getAppStore_setAppStore_same, setAppStore_setAppStore]
      exact setAppStore_settings st t _
    · rfl

/-- One applier step never touches the store of a different app type. -/
theorem apply_step_frame (acc : ClientState × Option String) (t : AppType)
    (snap : Option AppProviderSnapshot) (t' : AppType) (h : t' ≠ t) :
    getAppStore (apply_step acc t snap).1 t' = getAppStore acc.1 t' := by
  obtain ⟨st0, e0⟩ := acc
  cases e0 with
  | some e => rfl
  | none =>
    cases snap with
    | none => rfl
    | some s => exact apply_app_snapshot_frame st0 t s t' h

theorem apply_step_settings (acc : ClientState × Option String) (t : AppType)
    (snap : Option AppProviderSnapshot) :
    (apply_step acc t snap).1.settings = acc.1.settings := by
  unfold apply_step
  match acc with
  | (st, some e) => rfl
  | (st, none) =>
    cases snap with
    | none => rfl
    | some s => exact apply_app_snapshot_settings st t s

/-- `apply_admin_config` never touches the settings store. -/
theorem apply_admin_config_settings (st : ClientState) (config : DeviceConfigSnapshot) :
    (apply_admin_config st config).1.settings = st.settings := by
  unfold apply_admin_config
  rw [apply_step_settings, apply_step_settings, apply_step_settings]

/-- The replacement map of `set_setting` keeps the key findable and maps it
to the new value. -/
theorem find?_set_replace (k v : String) :
    ∀ s : List (String × String), (s.find? (fun kv => kv.1 == k)).isSome = true →
      (s.map (fun kv => if kv.1 == k then (k, v) else kv)).find? (fun kv => kv.1 == k)
        = some (k, v) := by
  intro s
  induction s with
  | nil => intro h; simp at h
  | cons hd tl ih =>
    intro h
    by_cases hp : (hd.1 == k) = true
    · simp only [List.map_cons, if_pos hp]
      exact List.find?_cons_of_pos _ (by simp)
    · simp only [List.map_cons, if_neg hp]
      rw [@List.find?_cons_of_neg _ (fun kv => kv.1 == k) hd _ hp]
      apply ih
      rwa [@List.find?_cons_of_neg _ (fun kv => kv.1 == k) hd _ hp] at h

/-- Reading a key back right after `set_setting` yields the written value. -/
theorem get_setting_set (s : List (String × String)) (k v : String) :
    get_setting (set_setting s k v) k = some v := by
  unfold set_setting
  cases hf : s.find? (fun kv => kv.1 == k) with
  | none =>
    unfold get_setting
    dsimp only
    rw [List.find?_append, hf]
    simp
  | some kv0 =>
    unfold get_setting
    dsimp only
    rw [find?_set_replace k v s (by rw [hf]; rfl)]
    rfl

/-- A fresh device id takes the insert branch of the admin-config upsert. -/
theorem lookupAdmin_upsert_fresh {B : Type} (table : List (AdminCfgRow B)) (id : String)
    (cfg : B) (now : Int) (h : lookupAdmin table id = none) :
    upsert_admin_config_value table id cfg now = (table ++ [⟨id, 1, cfg, now⟩], 1) := by
  unfold upsert_admin_config_value
  unfold lookupAdmin at h
  rw [h]

/-- Looking up the id of a row appended to a table that lacks it. -/
theorem lookupAdmin_append_self {B : Type} (table : List (AdminCfgRow B)) (id : String)
    (row : AdminCfgRow B) (h : lookupAdmin table id = none)
    (hrow : (row.deviceId == id) = true) :
    lookupAdmin (table ++ [row]) id = some row := by
  unfold lookupAdmin at h ⊢
  rw [List.find?_append, h]
  rw [@List.find?_cons_of_pos _ (fun r : AdminCfgRow B => r.deviceId == id) row [] hrow]
  rfl

/-- The update map of the conflict branch turns the found row into the
incremented row and keeps it the first match. -/
theorem find?_map_update {B : Type} (id : String) (cfg : B) (now : Int) :
    ∀ (table : List (AdminCfgRow B)) (r : AdminCfgRow B),
      table.find? (fun row => row.deviceId == id) = some r →
      (table.map (fun row =>
          if row.deviceId == id then
            { row with version := row.version + 1, config := cfg, updatedAt := now }
          else row)).find? (fun row => row.deviceId == id)
        = some { r with version := r.version + 1, config := cfg, updatedAt := now } := by
  intro table
  induction table with
  | nil => intro r h; simp at h
  | cons hd tl ih =>
    intro r h
    by_cases hp : (hd.deviceId == id) = true
    · rw [@List.find?_cons_of_pos _ (fun row : AdminCfgRow B => row.deviceId == id) hd tl hp] at h
      injection h with h
      subst h
      simp only [List.map_cons, if_pos hp]
      exact @List.find?_cons_of_pos _ (fun row : AdminCfgRow B => row.deviceId == id) _ _ hp
    · rw [@List.find?_cons_of_neg _ (fun row => row.deviceId == id) hd tl hp] at h
      simp only [List.map_cons, if_neg hp]
      rw [@List.find?_cons_of_neg _ (fun row => row.deviceId == id) hd _ hp]
      exact ih r h

/-- The conflict branch of the admin-config upsert returns the incremented
version and stores the incremented row. -/
theorem lookupAdmin_upsert_existing {B : Type} (table : List (AdminCfgRow B)) (id : String)
    (cfg : B) (now : Int) (r : AdminCfgRow B) (h : lookupAdmin table id = some r) :
    (upsert_admin_config_value table id cfg now).2 = r.version + 1 ∧
    lookupAdmin (upsert_admin_config_value table id cfg now).1 id
      = some { r with version := r.version + 1, config := cfg, updatedAt := now } := by
  unfold upsert_admin_config_value
  unfold lookupAdmin at h ⊢
  rw [h]
  exact ⟨rfl, find?_map_update id cfg now table r h⟩

/-- The admin-config upsert for one id leaves every other id's row alone. -/
theorem lookupAdmin_upsert_ne {B : Type} (table : List (AdminCfgRow B)) (id : String)
    (cfg : B) (now : Int) (d : String) (h : d ≠ id) :
    lookupAdmin (upsert_admin_config_value table id cfg now).1 d = lookupAdmin table d := by
  unfold upsert_admin_config_value
  cases hf : table.find? (fun row => row.deviceId == id) with
  | some r =>
    dsimp only
    unfold lookupAdmin
    rw [List.find?_map]
    have hpf : ((fun row : AdminCfgRow B => row.deviceId == d) ∘ (fun row =>
        if row.deviceId == id then
          { row with version := row.version + 1, config := cfg, updatedAt := now }
        else row)) = (fun row : AdminCfgRow B => row.deviceId == d) := by
      funext row
      by_cases hq : (row.deviceId == id) = true <;> simp [Function.comp, hq]
    rw [hpf]
    cases hfd : table.find? (fun row => row.deviceId == d) with
    | none => rfl
    | some rd =>
      have hpd : (rd.deviceId == d) = true :=
        @List.find?_some _ (fun row : AdminCfgRow B => row.deviceId == d) rd table hfd
      have hrd : ¬(rd.deviceId == id) = true := by
        rw [beq_iff_eq] at hpd ⊢
        rw [hpd]
        exact h
      simp only [Option.map_some']
      rw [if_neg hrd]
  | none =>
    dsimp only
    unfold lookupAdmin
    rw [List.find?_append]
    have hnew : ¬((⟨id, 1, cfg, now⟩ : AdminCfgRow B).deviceId == d) = true := by
      simp only [beq_iff_eq]
      exact fun hh => h hh.symm
    rw [@List.find?_cons_of_neg _ (fun row : AdminCfgRow B => row.deviceId == d) _ [] hnew]
    simp

/-- Sequential upserts keep incrementing an existing row's version by one. -/
theorem apply_upserts_version_existing {B : Type} (id : String) :
    ∀ (writes : List (B × Int)) (table : List (AdminCfgRow B)) (r : AdminCfgRow B),
      lookupAdmin table id = some r →
      (lookupAdmin (apply_upserts table id writes) id).map (·.version)
        = some (r.version + writes.length) := by
  intro writes
  induction writes with
  | nil =>
    intro table r h
    simp [apply_upserts, h]
  | cons w ws ih =>
    intro table r h
    have hstep := (lookupAdmin_upsert_existing table id w.1 w.2 r h).2
    rw [show apply_upserts table id (w :: ws)
        = apply_upserts (upsert_admin_config_value table id w.1 w.2).1 id ws from by
      simp [apply_upserts]]
    rw [ih (upsert_admin_config_value table id w.1 w.2).1 _ hstep]
    congr 1
    simp only [List.length_cons]
    push_cast
    ring

/-! ## Theorems -/

/-- C1: `upsertIncrement` inserts with version 1 when no row exists for the
device id, otherwise returns and stores version `current + 1` replacing
body and timestamp; consequently N sequential calls starting from no row
yield version N regardless of the bodies written. -/
theorem upsert_admin_config_version {B : Type} (table : List (AdminCfgRow B)) (id : String) :
    (∀ (cfg : B) (now : Int), lookupAdmin table id = none →
      upsert_admin_config_value table id cfg now = (table ++ [⟨id, 1, cfg, now⟩], 1)) ∧
    (∀ (cfg : B) (now : Int) (r : AdminCfgRow B), lookupAdmin table id = some r →
      (upsert_admin_config_value table id cfg now).2 = r.version + 1 ∧
      lookupAdmin (upsert_admin_config_value table id cfg now).1 id
        = some { r with version := r.version + 1, config := cfg, updatedAt := now }) ∧
    (∀ writes : List (B × Int), lookupAdmin table id = none → writes ≠ [] →
      (lookupAdmin (apply_upserts table id writes) id).map (·.version)
        = some (writes.length : Int)) := by
  refine ⟨fun cfg now h => lookupAdmin_upsert_fresh table id cfg now h,
          fun cfg now r h => lookupAdmin_upsert_existing table id cfg now r h,
          ?_⟩
  intro writes h hne
  cases writes with
  | nil => exact absurd rfl hne
  | cons w ws =>
    rw [show apply_upserts table id (w :: ws)
        = apply_upserts (upsert_admin_config_value table id w.1 w.2).1 id ws from by
      simp [apply_upserts]]
    have hlook : lookupAdmin (upsert_admin_config_value table id w.1 w.2).1 id
        = some ⟨id, 1, w.1, w.2⟩ := by
      rw [lookupAdmin_upsert_fresh table id w.1 w.2 h]
      exact lookupAdmin_append_self table id _ h (by simp)
    rw [apply_upserts_version_existing id ws _ _ hlook]
    congr 1
    simp only [List.length_cons]
    push_cast
    ring

/-- Witness for C1: two sequential upserts for device `dev` on an empty
table, with different bodies, end at version 2. -/
theorem upsert_admin_config_version_witness :
    (lookupAdmin (apply_upserts ([] : List (AdminCfgRow String)) "dev" [("a", 1), ("b", 2)])
        "dev").map (·.version) = some (2 : Int) :=
  (upsert_admin_config_version ([] : List (AdminCfgRow String)) "dev").2.2
    [("a", 1), ("b", 2)] rfl (by decide)

/-- C9: the sync response carries `adminConfig` and `adminVersion` as
projections of the same stored admin-config row: both absent when the row
is absent, and the row's config and version when it is present. -/
theorem sync_device_admin_pairing {B : Type} (st : ServerState B) (p : SyncRequestS B)
    (now : Int) (ip : Option String) (geo : Option GeoResult) (st' : ServerState B)
    (resp : SyncResponseS B)
    (h : sync_device st p now ip geo = .ok (st', resp)) :
    (resp.adminConfig.isSome = resp.adminVersion.isSome) ∧
    (lookupAdmin st.adminConfigs p.deviceId = none →
      resp.adminConfig = none ∧ resp.adminVersion = none) ∧
    (∀ r, lookupAdmin st.adminConfigs p.deviceId = some r →
      resp.adminConfig = some r.config ∧ resp.adminVersion = some r.version) := by
  unfold sync_device at h
  split at h
  · exact absurd h (by simp)
  · dsimp only at h
    injection h with h1
    have h2 : resp = ⟨true, now, (lookupAdmin st.adminConfigs p.deviceId).map (·.config),
        (lookupAdmin st.adminConfigs p.deviceId).map (·.version)⟩ :=
      (congrArg Prod.snd h1).symm
    subst h2
    cases hl : lookupAdmin st.adminConfigs p.deviceId <;> simp [hl]

/-- Filtering a duplicate-free id list by membership in the two-element
request `[a, b]` keeps exactly the present id `a`. -/
theorem filter_mem_pair (a b : String) :
    ∀ ids : List String, ids.Nodup → a ∈ ids → b ∉ ids →
      ids.filter (fun d => ([a, b] : List String).contains d) = [a] := by
  intro ids
  induction ids with
  | nil => intro _ ha _; simp at ha
  | cons x xs ih =>
    intro hnd hmem hb
    rw [List.nodup_cons] at hnd
    have hbxs : b ∉ xs := fun hh => hb (List.mem_cons_of_mem x hh)
    rcases List.mem_cons.mp hmem with hax | haxs
    · subst hax
      rw [List.filter_cons, if_pos (by simp)]
      have hnil : xs.filter (fun d => ([a, b] : List String).contains d) = [] := by
        rw [List.filter_eq_nil_iff]
        intro d hd hpd
        rcases List.mem_cons.mp (List.elem_iff.mp hpd) with h1 | h2
        · exact hnd.1 (h1 ▸ hd)
        · rw [List.mem_singleton] at h2
          exact hbxs (h2 ▸ hd)
      rw [hnil]
    · have hxa : x ≠ a := fun hh => hnd.1 (hh ▸ haxs)
      have hxb : x ≠ b := fun hh => hb (hh ▸ List.mem_cons_self x xs)
      rw [List.filter_cons, if_neg (by simp [hxa, hxb])]
      exact ih hnd.2 haxs hbxs

/-- C4: `applyToMany` on the request `["known", "unknown"]`, when `known`
is registered and `unknown` is not, upserts exactly the known id and
returns `updated = 1`; no admin-config row appears for the unknown id, and
every other device's admin-config row is untouched. -/
theorem batch_admin_config_known_unknown {B : Type} (st : ServerState B) (cfg : B) (now : Int)
    (hnd : (st.devices.map (·.deviceId)).Nodup)
    (hk : "known" ∈ st.devices.map (·.deviceId))
    (hu : "unknown" ∉ st.devices.map (·.deviceId))
    (ha : lookupAdmin st.adminConfigs "unknown" = none) :
    batch_admin_config st ["known", "unknown"] cfg now
      = .ok ({ st with
               adminConfigs := (upsert_admin_config_value st.adminConfigs "known" cfg now).1 },
             1) ∧
    lookupAdmin ((upsert_admin_config_value st.adminConfigs "known" cfg now).1) "unknown"
      = none ∧
    (∀ d, d ≠ "known" →
      lookupAdmin ((upsert_admin_config_value st.adminConfigs "known" cfg now).1) d
        = lookupAdmin st.adminConfigs d) := by
  refine ⟨?_, ?_, fun d hd => lookupAdmin_upsert_ne st.adminConfigs "known" cfg now d hd⟩
  · unfold batch_admin_config
    rw [if_neg (by simp)]
    dsimp only
    rw [filter_mem_pair "known" "unknown" (st.devices.map (·.deviceId)) hnd hk hu]
    rfl
  · rw [lookupAdmin_upsert_ne st.adminConfigs "known" cfg now "unknown" (by decide)]
    exact ha

/-- Witness for C4: a registry holding exactly the device `known`, with no
admin-config rows. -/
theorem batch_admin_config_known_unknown_witness :
    batch_admin_config
        (⟨[⟨"known", "known", 0, none, none, none, none, none, 0⟩], [], []⟩ : ServerState String)
        ["known", "unknown"] "body" 9
      = .ok (⟨[⟨"known", "known", 0, none, none, none, none, none, 0⟩], [],
              [⟨"known", 1, "body", 9⟩]⟩, 1) :=
  (batch_admin_config_known_unknown
      (⟨[⟨"known", "known", 0, none, none, none, none, none, 0⟩], [], []⟩ : ServerState String)
      "body" 9 (by decide) (by decide) (by decide) rfl).1

/-- The device-row update of the conflict branch never changes a row's
`deviceId` (and hence never changes which rows match a device-id
predicate). -/
theorem upsert_device_update_deviceId {B : Type} (p : SyncRequestS B) (now : Int)
    (ip : Option String) (geo : Option GeoResult) (r : DeviceRow) :
    (if r.deviceId == p.deviceId then
        { r with
            lastSeen := now
            lastIp := ip
            geoCountry := geo.bind (·.country)
            geoRegion := geo.bind (·.region)
            geoCity := geo.bind (·.city)
            appVersion := p.appVersion }
      else r).deviceId = r.deviceId := by
  by_cases hq : (r.deviceId == p.deviceId) = true
  · rw [if_pos hq]
  · rw [if_neg hq]

/-- A registry that already holds the device id takes the conflict branch
of the device upsert. -/
theorem upsert_device_existing {B : Type} (table : List DeviceRow) (p : SyncRequestS B)
    (now : Int) (ip : Option String) (geo : Option GeoResult) (r : DeviceRow)
    (h : table.find? (fun x => x.deviceId == p.deviceId) = some r) :
    upsert_device table p now ip geo
      = table.map (fun x =>
          if x.deviceId == p.deviceId then
            { x with
                lastSeen := now
                lastIp := ip
                geoCountry := geo.bind (·.country)
                geoRegion := geo.bind (·.region)
                geoCity := geo.bind (·.city)
                appVersion := p.appVersion }
          else x) := by
  unfold upsert_device
  rw [h]

/-- C5: upserting the same device id twice into a registry that does not
yet hold it leaves exactly one row for that id; that row carries the
second call's lastSeen/lastIp/geo fields and appVersion, the device id as
fingerprint hash, and the first call's timestamp as createdAt. -/
theorem upsert_device_twice {B : Type} (table : List DeviceRow) (p1 p2 : SyncRequestS B)
    (t1 t2 : Int) (ip1 ip2 : Option String) (g1 g2 : Option GeoResult)
    (hid : p2.deviceId = p1.deviceId)
    (hfresh : ∀ r ∈ table, r.deviceId ≠ p1.deviceId) :
    ((upsert_device (upsert_device table p1 t1 ip1 g1) p2 t2 ip2 g2).filter
        (fun r => r.deviceId == p1.deviceId)).length = 1 ∧
    (upsert_device (upsert_device table p1 t1 ip1 g1) p2 t2 ip2 g2).find?
        (fun r => r.deviceId == p1.deviceId)
      = some { deviceId := p1.deviceId, fingerprintHash := p1.deviceId, lastSeen := t2,
               lastIp := ip2, geoCountry := g2.bind (·.country),
               geoRegion := g2.bind (·.region), geoCity := g2.bind (·.city),
               appVersion := p2.appVersion, createdAt := t1 } := by
  have hf1 : table.find? (fun r => r.deviceId == p1.deviceId) = none :=
    List.find?_eq_none.mpr (fun x hx => by
      simp only [beq_iff_eq]
      exact hfresh x hx)
  have e1 : upsert_device table p1 t1 ip1 g1
      = table ++ [{ deviceId := p1.deviceId, fingerprintHash := p1.deviceId, lastSeen := t1,
                    lastIp := ip1, geoCountry := g1.bind (·.country),
                    geoRegion := g1.bind (·.region), geoCity := g1.bind (·.city),
                    appVersion := p1.appVersion, createdAt := t1 }] := by
    unfold upsert_device
    rw [hf1]
  have hf1' : table.find? (fun r => r.deviceId == p2.deviceId) = none := by
    rw [hid]
    exact hf1
  have hrow1 : (({ deviceId := p1.deviceId, fingerprintHash := p1.deviceId, lastSeen := t1,
                   lastIp := ip1, geoCountry := g1.bind (·.country),
                   geoRegion := g1.bind (·.region), geoCity := g1.bind (·.city),
                   appVersion := p1.appVersion,
                   createdAt := t1 } : DeviceRow).deviceId == p2.deviceId) = true := by
    simp [beq_iff_eq, hid]
  have hf2 : (upsert_device table p1 t1 ip1 g1).find? (fun r => r.deviceId == p2.deviceId)
      = some { deviceId := p1.deviceId, fingerprintHash := p1.deviceId, lastSeen := t1,
               lastIp := ip1, geoCountry := g1.bind (·.country),
               geoRegion := g1.bind (·.region), geoCity := g1.bind (·.city),
               appVersion := p1.appVersion, createdAt := t1 } := by
    rw [e1, List.find?_append, hf1']
    rw [@List.find?_cons_of_pos _ (fun r : DeviceRow => r.deviceId == p2.deviceId) _ [] hrow1]
    rfl
  have e2 : upsert_device (upsert_device table p1 t1 ip1 g1) p2 t2 ip2 g2
      = (upsert_device table p1 t1 ip1 g1).map (fun r =>
          if r.deviceId == p2.deviceId then
            { r with
                lastSeen := t2
                lastIp := ip2
                geoCountry := g2.bind (·.country)
                geoRegion := g2.bind (·.region)
                geoCity := g2.bind (·.city)
                appVersion := p2.appVersion }
          else r) :=
    upsert_device_existing (upsert_device table p1 t1 ip1 g1) p2 t2 ip2 g2 _ hf2
  have hpf : ((fun r : DeviceRow => r.deviceId == p1.deviceId) ∘ (fun r : DeviceRow =>
      if r.deviceId == p2.deviceId then
        { r with
            lastSeen := t2
            lastIp := ip2
            geoCountry := g2.bind (·.country)
            geoRegion := g2.bind (·.region)
            geoCity := g2.bind (·.city)
            appVersion := p2.appVersion }
      else r)) = (fun r : DeviceRow => r.deviceId == p1.deviceId) := by
    funext r
    simp only [Function.comp]
    rw [upsert_device_update_deviceId p2 t2 ip2 g2 r]
  constructor
  · rw [e2, List.filter_map, hpf, e1, List.filter_append]
    rw [List.filter_eq_nil_iff.mpr (fun x hx => by
      simp only [beq_iff_eq]
      exact hfresh x hx)]
    rw [List.filter_cons, if_pos (by simp)]
    simp
  · rw [e2, List.find?_map, hpf, e1, List.find?_append, hf1]
    rw [@List.find?_cons_of_pos _ (fun r : DeviceRow => r.deviceId == p1.deviceId) _ []
      (by simp)]
    simp only [Option.or, Option.map_some']
    rw [if_pos hrow1]

/-- Witness for C5: two upserts of device `dev` into an empty registry,
with different timestamps and app versions. -/
theorem upsert_device_twice_witness :
    ((upsert_device (upsert_device ([] : List DeviceRow)
          (⟨"dev", some "1.0", none, "s1", none⟩ : SyncRequestS String) 1 none none)
        (⟨"dev", some "2.0", none, "s2", none⟩ : SyncRequestS String) 2 none none).filter
        (fun r => r.deviceId == "dev")).length = 1 :=
  (upsert_device_twice ([] : List DeviceRow)
      (⟨"dev", some "1.0", none, "s1", none⟩ : SyncRequestS String)
      (⟨"dev", some "2.0", none, "s2", none⟩ : SyncRequestS String)
      1 2 none none none none rfl (by decide)).1

/-- The device upsert preserves the fingerprint-equals-device-id invariant:
the insert branch writes the request's device id into both columns, and
the conflict branch updates neither. -/
theorem upsert_device_fingerprint {B : Type} (l : List DeviceRow) (p : SyncRequestS B)
    (now : Int) (ip : Option String) (geo : Option GeoResult)
    (h : ∀ r ∈ l, r.fingerprintHash = r.deviceId) :
    ∀ r ∈ upsert_device l p now ip geo, r.fingerprintHash = r.deviceId := by
  intro r hr
  unfold upsert_device at hr
  cases hf : l.find? (fun x => x.deviceId == p.deviceId) with
  | some _ =>
    rw [hf] at hr
    dsimp only at hr
    obtain ⟨x, hx, hfx⟩ := List.mem_map.mp hr
    by_cases hq : (x.deviceId == p.deviceId) = true
    · rw [if_pos hq] at hfx
      rw [← hfx]
      exact h x hx
    · rw [if_neg hq] at hfx
      rw [← hfx]
      exact h x hx
  | none =>
    rw [hf] at hr
    dsimp only at hr
    rcases List.mem_append.mp hr with hin | hnew
    · exact h r hin
    · rw [List.mem_singleton] at hnew
      rw [hnew]

/-- The batch fold mutates only the admin-config table. -/
theorem batch_foldl_devices {B : Type} (cfg : B) (now : Int) :
    ∀ (ids : List String) (st : ServerState B),
      (ids.foldl
        (fun acc id =>
          { acc with
            adminConfigs := (upsert_admin_config_value acc.adminConfigs id cfg now).1 })
        st).devices = st.devices := by
  intro ids
  induction ids with
  | nil => intro st; rfl
  | cons x xs ih =>
    intro st
    rw [List.foldl_cons, ih]

/-- Every server operation preserves the fingerprint invariant. -/
theorem applyOp_fingerprint {B : Type} (st : ServerState B) (op : ServerOp B)
    (h : ∀ r ∈ st.devices, r.fingerprintHash = r.deviceId) :
    ∀ r ∈ (applyOp st op).devices, r.fingerprintHash = r.deviceId := by
  cases op with
  | sync p now ip geo =>
    dsimp only [applyOp]
    cases hs : sync_device st p now ip geo with
    | error e => exact h
    | ok pr =>
      obtain ⟨st', resp⟩ := pr
      unfold sync_device at hs
      split at hs
      · exact absurd hs (by simp)
      · dsimp only at hs
        injection hs with h1
        have h2 : st' = ⟨upsert_device st.devices p now ip geo,
            insert_snapshot st.snapshots p.deviceId p.snapshot now, st.adminConfigs⟩ :=
          (congrArg Prod.fst h1).symm
        subst h2
        exact upsert_device_fingerprint st.devices p now ip geo h
  | adminPush id cfg now =>
    dsimp only [applyOp]
    cases hu : upsert_admin_config st id cfg now with
    | error e => exact h
    | ok pr =>
      obtain ⟨st', v⟩ := pr
      unfold upsert_admin_config at hu
      split at hu
      · exact absurd hu (by simp)
      · dsimp only at hu
        injection hu with h1
        have h2 : st' = { st with
            adminConfigs := (upsert_admin_config_value st.adminConfigs id cfg now).1 } :=
          (congrArg Prod.fst h1).symm
        subst h2
        exact h
  | batch ids cfg now =>
    dsimp only [applyOp]
    cases hb : batch_admin_config st ids cfg now with
    | error e => exact h
    | ok pr =>
      obtain ⟨st', v⟩ := pr
      unfold batch_admin_config at hb
      split at hb
      · exact absurd hb (by simp)
      · dsimp only at hb
        injection hb with h1
        have h2 : st' = ((st.devices.map (·.deviceId)).filter
            (fun d => ids.contains d)).foldl
              (fun acc id =>
                { acc with
                  adminConfigs := (upsert_admin_config_value acc.adminConfigs id cfg now).1 })
              st :=
          (congrArg Prod.fst h1).symm
        subst h2
        rw [batch_foldl_devices]
        exact h

/-- Running any operation sequence preserves the fingerprint invariant. -/
theorem runOps_fingerprint {B : Type} (ops : List (ServerOp B)) :
    ∀ st : ServerState B, (∀ r ∈ st.devices, r.fingerprintHash = r.deviceId) →
      ∀ r ∈ (runOps st ops).devices, r.fingerprintHash = r.deviceId := by
  induction ops with
  | nil => intro st h; exact h
  | cons op ops ih =>
    intro st h
    exact ih (applyOp st op) (applyOp_fingerprint st op h)

/-! C8's theorem. -/

/-- C8: in every state reachable from the empty database by server
operations, every device row's fingerprintHash equals its deviceId — the
sync handler binds the request's deviceId to both columns and never writes
a separate fingerprint value. -/
theorem reachable_fingerprint_eq_deviceId {B : Type} (ops : List (ServerOp B)) :
    ∀ r ∈ (runOps (initialServerState B) ops).devices, r.fingerprintHash = r.deviceId :=
  runOps_fingerprint ops (initialServerState B) (fun r hr => absurd hr (List.not_mem_nil r))

/-- Witness for C8: after one sync of device `dev`, the single registry row
has its device id as fingerprint hash. -/
theorem reachable_fingerprint_eq_deviceId_witness :
    (⟨"dev", "dev", 5, none, none, none, none, none, 5⟩ : DeviceRow).fingerprintHash
      = (⟨"dev", "dev", 5, none, none, none, none, none, 5⟩ : DeviceRow).deviceId :=
  @reachable_fingerprint_eq_deviceId String
    [.sync ⟨"dev", none, none, "snap", none⟩ 5 none none]
    ⟨"dev", "dev", 5, none, none, none, none, none, 5⟩ (by decide)

/-- Witness for C9: a sync for device `dev` against a state holding admin
config version 3 returns config and version together. -/
theorem sync_device_admin_pairing_witness :
    ((⟨true, 7, some "cfgbody", some 3⟩ : SyncResponseS String).adminConfig.isSome
      = (⟨true, 7, some "cfgbody", some 3⟩ : SyncResponseS String).adminVersion.isSome) :=
  (sync_device_admin_pairing ⟨[], [], [⟨"dev", 3, "cfgbody", 5⟩]⟩
      ⟨"dev", none, none, "snapbody", none⟩ 7 none none
      ⟨[⟨"dev", "dev", 7, none, none, none, none, none, 7⟩], [⟨"dev", "snapbody", 7⟩],
        [⟨"dev", 3, "cfgbody", 5⟩]⟩
      ⟨true, 7, some "cfgbody", some 3⟩ rfl).1

/-- C7: for a current local time strictly before 04:00 of its day the
computed delay is the time until 04:00 today, and for a time at or after
04:00 it is the time until 04:00 tomorrow, across day boundaries included
(times in seconds in the fixed UTC+8 offset, where the time of day is
`nowLocal % 86400` and 04:00 is second 4 * 3600 of the day). -/
theorem next_beijing_4am_delay_correct (nowLocal : Nat) :
    (nowLocal % 86400 < 4 * 3600 →
      next_beijing_4am_delay nowLocal = 4 * 3600 - nowLocal % 86400) ∧
    (4 * 3600 ≤ nowLocal % 86400 →
      next_beijing_4am_delay nowLocal = 86400 + 4 * 3600 - nowLocal % 86400) := by
  constructor <;> intro h <;> simp only [next_beijing_4am_delay] <;> split <;> omega

/-- Witness for C7: at 01:00 the delay reaches 04:00 today; at 23:00
(second 82800) it reaches 04:00 tomorrow, across the day boundary. -/
theorem next_beijing_4am_delay_correct_witness :
    next_beijing_4am_delay 3600 = 4 * 3600 - 3600 % 86400 ∧
    next_beijing_4am_delay 82800 = 86400 + 4 * 3600 - 82800 % 86400 :=
  ⟨(next_beijing_4am_delay_correct 3600).1 (by decide),
   (next_beijing_4am_delay_correct 82800).2 (by decide)⟩

/-- C10: the stored applied admin version reads back as absent when the
setting is missing, when it does not parse as an i64, or when it parses to
a value that is not strictly positive; consequently any present value —
and hence the `appliedAdminVersion` field of a sync request, which is this
value — is strictly positive. -/
theorem get_applied_admin_version_spec :
    get_applied_admin_version none = none ∧
    (∀ s : String, parse_i64 s = none → get_applied_admin_version (some s) = none) ∧
    (∀ (s : String) (v : Int), parse_i64 s = some v → v ≤ 0 →
      get_applied_admin_version (some s) = none) ∧
    (∀ (stored : Option String) (v : Int),
      get_applied_admin_version stored = some v → 0 < v) := by
  refine ⟨rfl, ?_, ?_, ?_⟩
  · intro s h
    simp [get_applied_admin_version, h]
  · intro s v h hle
    simp [get_applied_admin_version, h, Option.filter]
    omega
  · intro stored v h
    have := (Option.filter_eq_some.mp h).2
    simpa using this

/-- C6: when `apply_app_snapshot` succeeds for an app type, the result is a
destructive replace: the stored providers of that app type are exactly the
pushed map's values in map order, the active provider is switched to
`currentProviderId`, and no other app type's store changes. -/
theorem apply_app_snapshot_destructive_replace (st : ClientState) (t : AppType)
    (snap : AppProviderSnapshot) (currentId : String)
    (h1 : snap.currentId = some currentId)
    (h2 : (snap.providers.map (·.1)).contains currentId = true) :
    (apply_app_snapshot st t snap).2 = none ∧
    getAppStore (apply_app_snapshot st t snap).1 t
      = { providers := snap.providers.map (·.2), current := some currentId } ∧
    (∀ t', t' ≠ t → getAppStore (apply_app_snapshot st t snap).1 t' = getAppStore st t') := by
  rw [apply_app_snapshot_success_eq st t snap currentId h1 h2]
  exact ⟨rfl, getAppStore_setAppStore_same st t _,
    fun t' ht' => getAppStore_setAppStore_ne st t _ t' ht'⟩

/-- Witness for C6: pushing the one-provider map `{p1}` with current id
`p1` onto an empty claude store succeeds. -/
theorem apply_app_snapshot_destructive_replace_witness :
    (apply_app_snapshot ⟨⟨[], none⟩, ⟨[], none⟩, ⟨[], none⟩, []⟩ .claude
        ⟨some "p1", [("p1", ⟨"p1", "cfg1"⟩)]⟩).2 = none ∧
    getAppStore (apply_app_snapshot ⟨⟨[], none⟩, ⟨[], none⟩, ⟨[], none⟩, []⟩ .claude
        ⟨some "p1", [("p1", ⟨"p1", "cfg1"⟩)]⟩).1 .claude
      = { providers := [⟨"p1", "cfg1"⟩], current := some "p1" } :=
  ⟨(apply_app_snapshot_destructive_replace _ .claude _ "p1" rfl (by decide)).1,
   (apply_app_snapshot_destructive_replace _ .claude _ "p1" rfl (by decide)).2.1⟩

/-- C2: validation precedes any destructive operation. An app type whose
snapshot has no `currentProviderId`, or one that is not a key of
`providers`, makes `apply_app_snapshot` return the error with the state
untouched. Consequently, in `apply_admin_config`: an invalid claude
snapshot stops everything with the whole state unchanged; an invalid codex
snapshot after a successful claude stage returns the error with the codex
and gemini stores unchanged and the claude store keeping its newly applied
state; an invalid gemini snapshot after successful earlier stages returns
the error with the gemini store unchanged while the earlier stages' state
is kept. -/
theorem apply_admin_config_invalid_stops :
    (∀ (st : ClientState) (t : AppType) (snap : AppProviderSnapshot),
      snapshotValid snap = false →
        (apply_app_snapshot st t snap).1 = st ∧
        (apply_app_snapshot st t snap).2.isSome = true) ∧
    (∀ (st st1 : ClientState) (config : DeviceConfigSnapshot) (snap : AppProviderSnapshot),
      config.codex = some snap → snapshotValid snap = false →
      apply_step (st, none) .claude config.claude = (st1, none) →
        apply_admin_config st config = (st1, (apply_app_snapshot st1 .codex snap).2) ∧
        (apply_app_snapshot st1 .codex snap).2.isSome = true ∧
        getAppStore st1 .codex = getAppStore st .codex ∧
        getAppStore st1 .gemini = getAppStore st .gemini) ∧
    (∀ (st : ClientState) (config : DeviceConfigSnapshot) (snap : AppProviderSnapshot),
      config.claude = some snap → snapshotValid snap = false →
        apply_admin_config st config = (st, (apply_app_snapshot st .claude snap).2) ∧
        (apply_app_snapshot st .claude snap).2.isSome = true) ∧
    (∀ (st st2 : ClientState) (config : DeviceConfigSnapshot) (snap : AppProviderSnapshot),
      config.gemini = some snap → snapshotValid snap = false →
      apply_step (apply_step (st, none) .claude config.claude) .codex config.codex
        = (st2, none) →
        apply_admin_config st config = (st2, (apply_app_snapshot st2 .gemini snap).2) ∧
        (apply_app_snapshot st2 .gemini snap).2.isSome = true ∧
        getAppStore st2 .gemini = getAppStore st .gemini) := by
  refine ⟨fun st t snap h => apply_app_snapshot_invalid_eq st t snap h, ?_, ?_, ?_⟩
  · intro st st1 config snap hcodex hinv hclaude
    obtain ⟨hst, hsome⟩ := apply_app_snapshot_invalid_eq st1 .codex snap hinv
    obtain ⟨e, he⟩ := Option.isSome_iff_exists.mp hsome
    have happ : apply_app_snapshot st1 .codex snap = (st1, some e) := Prod.ext hst he
    have hframe : getAppStore st1 .codex = getAppStore st .codex ∧
        getAppStore st1 .gemini = getAppStore st .gemini := by
      cases hcl : config.claude with
      | none =>
        rw [hcl] at hclaude
        have hss : st = st1 := congrArg Prod.fst hclaude
        rw [hss]
        exact ⟨rfl, rfl⟩
      | some s =>
        rw [hcl] at hclaude
        have h1 : (apply_app_snapshot st .claude s).1 = st1 := congrArg Prod.fst hclaude
        constructor
        · rw [← h1]
          exact apply_app_snapshot_frame st .claude s .codex (by decide)
        · rw [← h1]
          exact apply_app_snapshot_frame st .claude s .gemini (by decide)
    refine ⟨?_, hsome, hframe.1, hframe.2⟩
    unfold apply_admin_config
    rw [hclaude, hcodex]
    have hstep : apply_step (st1, none) .codex (some snap) = (st1, some e) := happ
    rw [hstep, he]
    rfl
  · intro st config snap hcl hinv
    obtain ⟨hst, hsome⟩ := apply_app_snapshot_invalid_eq st .claude snap hinv
    obtain ⟨e, he⟩ := Option.isSome_iff_exists.mp hsome
    have happ : apply_app_snapshot st .claude snap = (st, some e) := Prod.ext hst he
    refine ⟨?_, hsome⟩
    unfold apply_admin_config
    rw [hcl]
    have hstep : apply_step (st, none) .claude (some snap) = (st, some e) := happ
    rw [hstep, he]
    cases config.codex <;> cases config.gemini <;> rfl
  · intro st st2 config snap hgem hinv hstage
    obtain ⟨hst, hsome⟩ := apply_app_snapshot_invalid_eq st2 .gemini snap hinv
    obtain ⟨e, he⟩ := Option.isSome_iff_exists.mp hsome
    have happ : apply_app_snapshot st2 .gemini snap = (st2, some e) := Prod.ext hst he
    refine ⟨?_, hsome, ?_⟩
    · unfold apply_admin_config
      rw [hstage, hgem]
      have hstep : apply_step (st2, none) .gemini (some snap) = (st2, some e) := happ
      rw [hstep, he]
    · have h1 : st2
          = (apply_step (apply_step (st, none) .claude config.claude)
              .codex config.codex).1 :=
        (congrArg Prod.fst hstage).symm
      rw [h1, apply_step_frame _ .codex _ .gemini (by decide),
        apply_step_frame _ .claude _ .gemini (by decide)]

/-- Witness for C2: a valid claude snapshot followed by a codex snapshot
whose current id `p9` is not among its providers: the claude store keeps
the pushed provider, codex and gemini stay empty, and the error is
reported. -/
theorem apply_admin_config_invalid_stops_witness :
    (apply_app_snapshot ⟨⟨[], none⟩, ⟨[], none⟩, ⟨[], none⟩, []⟩ .codex
        ⟨some "p9", [("p1", ⟨"p1", "c"⟩)]⟩).1 = ⟨⟨[], none⟩, ⟨[], none⟩, ⟨[], none⟩, []⟩ ∧
    apply_admin_config ⟨⟨[], none⟩, ⟨[], none⟩, ⟨[], none⟩, []⟩
        ⟨some ⟨some "p1", [("p1", ⟨"p1", "c"⟩)]⟩, some ⟨some "p9", [("p1", ⟨"p1", "c"⟩)]⟩, none⟩
      = (⟨⟨[⟨"p1", "c"⟩], some "p1"⟩, ⟨[], none⟩, ⟨[], none⟩, []⟩,
         (apply_app_snapshot ⟨⟨[⟨"p1", "c"⟩], some "p1"⟩, ⟨[], none⟩, ⟨[], none⟩, []⟩ .codex
           ⟨some "p9", [("p1", ⟨"p1", "c"⟩)]⟩).2) :=
  ⟨(apply_admin_config_invalid_stops.1 ⟨⟨[], none⟩, ⟨[], none⟩, ⟨[], none⟩, []⟩ .codex
      ⟨some "p9", [("p1", ⟨"p1", "c"⟩)]⟩ (by decide)).1,
   (apply_admin_config_invalid_stops.2.1 ⟨⟨[], none⟩, ⟨[], none⟩, ⟨[], none⟩, []⟩
      ⟨⟨[⟨"p1", "c"⟩], some "p1"⟩, ⟨[], none⟩, ⟨[], none⟩, []⟩
      ⟨some ⟨some "p1", [("p1", ⟨"p1", "c"⟩)]⟩, some ⟨some "p9", [("p1", ⟨"p1", "c"⟩)]⟩, none⟩
      ⟨some "p9", [("p1", ⟨"p1", "c"⟩)]⟩ rfl (by decide) (by decide)).1⟩

/-- Counterexample to C3 as stated: an `ok = true` response whose
`adminConfig` is present but fails to apply (its claude snapshot has no
current provider). Starting from empty settings, `lastSyncAt` is NOT
persisted: the `?` after `apply_admin_config` returns before
`set_last_sync_at` runs. -/
theorem run_once_lastSyncAt_counterexample :
    let st0 : ClientState := ⟨⟨[], none⟩, ⟨[], none⟩, ⟨[], none⟩, []⟩
    let resp : SyncResponseC := ⟨true, some ⟨some ⟨none, []⟩, none, none⟩, some 7⟩
    resp.ok = true ∧ resp.adminConfig.isSome = true ∧
    (run_once_handle_response st0 resp 100).2.isSome = true ∧
    get_setting (run_once_handle_response st0 resp 100).1.settings settingsLastSyncAt
      = none := by
  exact ⟨rfl, rfl, rfl, rfl⟩

/-- C3 amended: `runOnce` persists `lastSyncAt = now` on an `ok` response
whenever `adminConfig` is absent or applies successfully; when applying
fails, it instead returns the apply error with the settings — including
`lastSyncAt` — unchanged (the state keeps only the applier's provider
mutations). -/
theorem run_once_lastSyncAt_amended (st : ClientState) (data : SyncResponseC) (now : Int)
    (hok : data.ok = true) :
    (data.adminConfig = none →
      get_setting (run_once_handle_response st data now).1.settings settingsLastSyncAt
        = some (toString now)) ∧
    (∀ config, data.adminConfig = some config → (apply_admin_config st config).2 = none →
      get_setting (run_once_handle_response st data now).1.settings settingsLastSyncAt
        = some (toString now)) ∧
    (∀ config, data.adminConfig = some config →
      (apply_admin_config st config).2.isSome = true →
      run_once_handle_response st data now
        = ((apply_admin_config st config).1, (apply_admin_config st config).2) ∧
      (run_once_handle_response st data now).1.settings = st.settings) := by
  refine ⟨?_, ?_, ?_⟩
  · intro hnone
    unfold run_once_handle_response
    rw [if_pos hok, hnone]
    dsimp only
    simp only [set_last_sync_at]
    exact get_setting_set st.settings settingsLastSyncAt (toString now)
  · intro config hsome happ
    unfold run_once_handle_response
    rw [if_pos hok, hsome]
    dsimp only
    have hpair : apply_admin_config st config = ((apply_admin_config st config).1, none) :=
      Prod.ext rfl happ
    rw [hpair]
    dsimp only
    cases data.adminVersion <;>
      · dsimp only
        simp only [set_last_sync_at, set_applied_admin_version]
        exact get_setting_set _ settingsLastSyncAt (toString now)
  · intro config hsome hfail
    obtain ⟨e, he⟩ := Option.isSome_iff_exists.mp hfail
    have hpair : apply_admin_config st config = ((apply_admin_config st config).1, some e) :=
      Prod.ext rfl he
    unfold run_once_handle_response
    rw [if_pos hok, hsome]
    dsimp only
    rw [hpair]
    dsimp only
    refine ⟨?_, ?_⟩
    · rfl
    · exact apply_admin_config_settings st config

/-- Witness for C3 (amended), exercising the success path: an `ok`
response with an applicable claude config persists `lastSyncAt`. -/
theorem run_once_lastSyncAt_amended_witness :
    get_setting (run_once_handle_response ⟨⟨[], none⟩, ⟨[], none⟩, ⟨[], none⟩, []⟩
        ⟨true, some ⟨some ⟨some "p1", [("p1", ⟨"p1", "c"⟩)]⟩, none, none⟩, some 2⟩ 100).1.settings
      settingsLastSyncAt = some (toString (100 : Int)) :=
  (run_once_lastSyncAt_amended ⟨⟨[], none⟩, ⟨[], none⟩, ⟨[], none⟩, []⟩
      ⟨true, some ⟨some ⟨some "p1", [("p1", ⟨"p1", "c"⟩)]⟩, none, none⟩, some 2⟩ 100 rfl).2.1
    ⟨some ⟨some "p1", [("p1", ⟨"p1", "c"⟩)]⟩, none, none⟩ rfl (by decide)

/-- Witness for C10: the setting `"0"` parses but is filtered out; `"7"`
reads back as 7, which is strictly positive. -/
theorem get_applied_admin_version_spec_witness :
    get_applied_admin_version (some "0") = none ∧ (0 : Int) < 7 :=
  ⟨(get_applied_admin_version_spec.2.2.1 "0" 0 (by decide) (by decide)),
   get_applied_admin_version_spec.2.2.2 (some "7") 7 (by decide)⟩

end MgmtSync
